import Mathlib

/-!
# kubernetes-event-exporter: the event collector of `main.go`

A shallow embedding of `eventCollector` (`newEventCollector`, `Describe`,
`Collect`) and of the part of the Prometheus client library the collector
calls (`NewDesc`, `NewConstMetric`, `MustNewConstMetric`).

Conventions of the embedding:

* Go `int32` values are integers of `Int`; every `int32` addition is followed
  by `wrapInt32`, the reduction modulo `2^32` into `[-2^31, 2^31)`.
* `float64(value)` for an `int32` value is exact (an `int32` fits the 53-bit
  significand), so a sample's value is kept as the integer it converts.
* The Go map `map[[3]string]int32` is an association list with one entry per
  key, in order of first insertion. Go leaves the iteration order of a map
  unspecified; the emission loop walks the entries in list order.
* A channel send `ch <- x` appends `x` to the list of values sent.
* A Go `panic` ends the call; it is recorded in `Outcome.panicked` together
  with what had been sent before it.
-/

namespace EventExporter

/-! ## Kubernetes API types, as far as `Collect` reads them -/

/-- The `InvolvedObject` of an event; `Collect` reads its `Kind` only. -/
structure ObjectReference where
  Kind : String
  deriving DecidableEq, Repr

/-- A `v1.Event`: `Reason`, `Type`, `InvolvedObject.Kind` and the `int32`
field `Count`. (`Type_` stands for the Go field `Type`.) -/
structure Event where
  Reason : String
  Type_ : String
  InvolvedObject : ObjectReference
  Count : Int
  deriving DecidableEq, Repr

/-- The `rest.Config` returned by `rest.InClusterConfig()`. -/
structure Config where
  Host : String
  deriving DecidableEq, Repr

/-- The `kubernetes.Clientset` built by `kubernetes.NewForConfig`. -/
structure Clientset where
  config : Config
  deriving DecidableEq, Repr

/-! ## 32-bit arithmetic -/

/-- Smallest `int32`. -/
def minInt32 : Int := -2147483648

/-- Largest `int32`. -/
def maxInt32 : Int := 2147483647

/-- Predicate: the integer is the value of some `int32`. -/
def isInt32 (x : Int) : Prop := minInt32 ≤ x ∧ x ≤ maxInt32

instance (x : Int) : Decidable (isInt32 x) := by
  unfold isInt32; exact inferInstance

/-- Reduction in twos complement of an integer to `int32`, the result of a Go
`int32` operation whose mathematical value is `x`. -/
def wrapInt32 (x : Int) : Int := (x + 2147483648) % 4294967296 - 2147483648

/-! ## The Prometheus client library, as far as the collector calls it -/

/-- The `prometheus.ValueType` enumeration. -/
inductive ValueType where
  | CounterValue
  | GaugeValue
  | UntypedValue
  deriving DecidableEq, Repr

/-- A `prometheus.Desc`: fully-qualified name, help text, the names of the
variable labels and the constant labels. -/
structure Desc where
  fqName : String
  help : String
  variableLabels : List String
  constLabels : List (String × String)
  deriving DecidableEq, Repr

/-- The library call `prometheus.NewDesc(fqName, help, variableLabels,
constLabels)`; a Go `nil` slice or map is the empty list. (The library also
validates the names; `event_count_total` with no labels passes.) -/
def NewDesc (fqName help : String) (variableLabels : List String)
    (constLabels : List (String × String)) : Desc :=
  { fqName := fqName, help := help, variableLabels := variableLabels,
    constLabels := constLabels }

/-- A constant metric: its descriptor, type, value and the label values given
for the descriptor's variable labels, position by position. -/
structure Metric where
  desc : Desc
  valType : ValueType
  val : Int
  labelValues : List String
  deriving DecidableEq, Repr

/-- The library call `prometheus.NewConstMetric` of the Prometheus Go client
(`github.com/prometheus/client_golang`, not part of this repository). Its
documentation: it "returns an error if the length of labelValues is not
consistent with the variable labels in Desc or if Desc is invalid"; the check
is `validateLabelValues(labelValues, len(desc.variableLabels))`. The descriptor
of this collector is valid, and a string of the embedding is always valid
UTF-8, so the cardinality check is the one that can fail here. -/
def NewConstMetric (desc : Desc) (valueType : ValueType) (value : Int)
    (labelValues : List String) : Except String Metric :=
  if labelValues.length ≠ desc.variableLabels.length then
    .error "inconsistent label cardinality"
  else
    .ok { desc := desc, valType := valueType, val := value, labelValues := labelValues }

/-- The library call `prometheus.MustNewConstMetric`, documented as the
version of `NewConstMetric` "that panics where NewConstMetric would have
returned an error". The panic is the `Except` error here; the caller records
it as its own panic. -/
def MustNewConstMetric (desc : Desc) (valueType : ValueType) (value : Int)
    (labelValues : List String) : Except String Metric :=
  NewConstMetric desc valueType value labelValues

/-! ## The collector -/

/-- The struct `eventCollector`. -/
structure eventCollector where
  eventCountTotal : Desc
  clientset : Clientset
  deriving DecidableEq, Repr

/-- What a method call on the collector did: the collector after the call, the
values it sent on its channel, in order, and the panic that ended it, if any. -/
structure Outcome (α : Type) where
  receiver : eventCollector
  sent : List α
  panicked : Option String

/-- The function `newEventCollector`. Its two outside calls are parameters:
`inClusterConfig` is the result of `rest.InClusterConfig()` and `newForConfig`
is `kubernetes.NewForConfig`. A panic is the `Except` error. -/
def newEventCollector (inClusterConfig : Except String Config)
    (newForConfig : Config → Except String Clientset) : Except String eventCollector :=
  match inClusterConfig with
  | .error err => .error err
  | .ok config =>
    match newForConfig config with
    | .error err => .error err
    | .ok clientset =>
      .ok
        { eventCountTotal :=
            NewDesc "event_count_total"
              "The total number of events currently reported by kubernetes."
              [] []
          clientset := clientset }

/-- The method `Describe`: one send of the stored descriptor. -/
def Describe (c : eventCollector) : Outcome Desc :=
  { receiver := c, sent := [c.eventCountTotal], panicked := none }

/-- The key type `[3]string` of the aggregation map. -/
abbrev Key := String × String × String

/-- The aggregation map `map[[3]string]int32`. -/
abbrev AggregateMap := List (Key × Int)

/-- Key lookup: the value stored under `k`, if the map has the key. -/
def mapFind : AggregateMap → Key → Option Int
  | [], _ => none
  | (k', v) :: rest, k => if k' = k then some v else mapFind rest k

/-- The Go read `aggregate[key]`: the stored value, or the zero value `0` of
`int32` for a key the map does not have. -/
def mapGet (m : AggregateMap) (k : Key) : Int :=
  match mapFind m k with
  | some v => v
  | none => 0

/-- The Go assignment `aggregate[key] = v`: overwrite the entry of the key, or
add one. -/
def mapSet : AggregateMap → Key → Int → AggregateMap
  | [], k, v => [(k, v)]
  | (k', v') :: rest, k, v =>
    if k' = k then (k, v) :: rest else (k', v') :: mapSet rest k v

/-- The key computed in the loop body:
`[3]string{event.Reason, event.Type, event.InvolvedObject.Kind}`. -/
def eventKey (event : Event) : Key :=
  (event.Reason, event.Type_, event.InvolvedObject.Kind)

/-- One iteration of the first loop of `Collect`. -/
def aggregateStep (aggregate : AggregateMap) (event : Event) : AggregateMap :=
  let key := eventKey event
  let previousCount := mapGet aggregate key
  mapSet aggregate key (wrapInt32 (previousCount + event.Count))

/-- The first loop of `Collect`: the map after all events, from the empty
map. -/
def aggregate (items : List Event) : AggregateMap :=
  items.foldl aggregateStep []

/-- The variadic label arguments of the `MustNewConstMetric` call in `Collect`:
`"reason", key[0], "type", key[1], "involvedObjectKind", key[2]`. -/
def collectLabelValues (key : Key) : List String :=
  ["reason", key.1, "type", key.2.1, "involvedObjectKind", key.2.2]

/-- The second loop of `Collect`, over the entries still to visit; `sent` is
what has been sent so far. The metric is built before it is sent, so a panic
in `MustNewConstMetric` leaves `sent` as it was. -/
def emitLoop (c : eventCollector) : AggregateMap → List Metric → Outcome Metric
  | [], sent => { receiver := c, sent := sent, panicked := none }
  | (key, value) :: rest, sent =>
    match MustNewConstMetric c.eventCountTotal ValueType.GaugeValue value
        (collectLabelValues key) with
    | .error err => { receiver := c, sent := sent, panicked := some err }
    | .ok m => emitLoop c rest (sent ++ [m])

/-- The method `Collect`. `listResult` is what the call
`c.clientset.CoreV1().Events("").List(metav1.ListOptions{})` returned: the
items of the event list, or the error. -/
def Collect (c : eventCollector) (listResult : Except String (List Event)) :
    Outcome Metric :=
  match listResult with
  | .error err => { receiver := c, sent := [], panicked := some err }
  | .ok items => emitLoop c (aggregate items) []

/-! ## Specification-side notions -/

/-- The mathematical sum of the counts of the records whose key is `k`. -/
def keySum (items : List Event) (k : Key) : Int :=
  ((items.filter (fun e => eventKey e = k)).map Event.Count).sum

/-- The mathematical sum of the counts of all records. -/
def countSum (items : List Event) : Int :=
  (items.map Event.Count).sum

/-- The sum of the totals stored in an aggregation map. -/
def mapTotal (m : AggregateMap) : Int :=
  (m.map Prod.snd).sum

/-- The keys of an aggregation map, in entry order. -/
def mapKeys (m : AggregateMap) : List Key :=
  m.map Prod.fst

/-- The sum of the values of a list of samples. -/
def sentTotal (ms : List Metric) : Int :=
  (ms.map Metric.val).sum

/-- A record built from its four fields. -/
def mkEvent (reason type kind : String) (count : Int) : Event :=
  { Reason := reason, Type_ := type, InvolvedObject := { Kind := kind }, Count := count }

/-- A collector as `newEventCollector` builds it in a cluster at `host`. -/
def sampleCollector : eventCollector :=
  { eventCountTotal :=
      NewDesc "event_count_total"
        "The total number of events currently reported by kubernetes."
        [] []
    clientset := { config := { Host := "https://10.0.0.1:443" } } }

/-- The three records of the concrete scenario. -/
def scenarioItems : List Event :=
  [mkEvent "Scheduled" "Normal" "Pod" 2, mkEvent "Scheduled" "Normal" "Pod" 3,
   mkEvent "Failed" "Warning" "Pod" 1]

/-- Two records of one key whose counts sum to `2^31`. -/
def overflowItems : List Event :=
  [mkEvent "Scheduled" "Normal" "Pod" 2147483647, mkEvent "Scheduled" "Normal" "Pod" 1]

/-- The same three records in another order. -/
def scenarioItemsReordered : List Event :=
  [mkEvent "Failed" "Warning" "Pod" 1, mkEvent "Scheduled" "Normal" "Pod" 3,
   mkEvent "Scheduled" "Normal" "Pod" 2]

/-- A list of one record. -/
def singleItems : List Event :=
  [mkEvent "Scheduled" "Normal" "Pod" 2]

/-- A list of one record whose count is zero. -/
def zeroItems : List Event :=
  [mkEvent "Scheduled" "Normal" "Pod" 0]

/-- The key of the records of reason Scheduled in the scenarios. -/
def scheduledKey : Key := ("Scheduled", "Normal", "Pod")

/-- A call of one of the two methods of the collector; a `Collect` call comes
with what its `List` call returns. -/
inductive Call where
  | describe
  | collect (listResult : Except String (List Event))

/-- The collector after a sequence of method calls, each call handing its
receiver on to the next. A call that panicked is passed over as if its caller
had recovered; without recovery no later call exists. -/
def afterCalls (c : eventCollector) : List Call → eventCollector
  | [] => c
  | Call.describe :: rest => afterCalls (Describe c).receiver rest
  | Call.collect listResult :: rest => afterCalls (Collect c listResult).receiver rest

/-! ## Arithmetic of `wrapInt32` -/

theorem wrapInt32_isInt32 (x : Int) : isInt32 (wrapInt32 x) := by
  unfold isInt32 wrapInt32 minInt32 maxInt32
  omega

theorem wrapInt32_of_isInt32 {x : Int} (h : isInt32 x) : wrapInt32 x = x := by
  unfold isInt32 minInt32 maxInt32 at h
  unfold wrapInt32
  omega

theorem wrapInt32_emod (x : Int) : wrapInt32 x % 4294967296 = x % 4294967296 := by
  unfold wrapInt32
  omega

theorem wrapInt32_wrap_add (a c : Int) :
    wrapInt32 (wrapInt32 a + c) = wrapInt32 (a + c) := by
  unfold wrapInt32
  omega

theorem wrapInt32_zero : wrapInt32 0 = 0 := by
  decide

/-! ## The map operations -/

theorem mapFind_mapSet (m : AggregateMap) (k : Key) (v : Int) (k2 : Key) :
    mapFind (mapSet m k v) k2 = if k = k2 then some v else mapFind m k2 := by
  induction m with
  | nil => simp [mapSet, mapFind]
  | cons p rest ih =>
    obtain ⟨k1, v1⟩ := p
    by_cases h1 : k1 = k
    · subst h1
      by_cases h : k1 = k2 <;> simp [mapSet, mapFind, h]
    · by_cases h2 : k1 = k2
      · subst h2
        have h3 : ¬ k = k1 := fun h => h1 h.symm
        simp [mapSet, mapFind, h1, h3]
      · simp [mapSet, mapFind, h1, h2, ih]

theorem mapGet_mapSet (m : AggregateMap) (k : Key) (v : Int) (k2 : Key) :
    mapGet (mapSet m k v) k2 = if k = k2 then v else mapGet m k2 := by
  unfold mapGet
  rw [mapFind_mapSet]
  by_cases h : k = k2 <;> simp [h]

theorem mapKeys_mapSet (m : AggregateMap) (k : Key) (v : Int) :
    mapKeys (mapSet m k v) = if k ∈ mapKeys m then mapKeys m else mapKeys m ++ [k] := by
  induction m with
  | nil => simp [mapSet, mapKeys]
  | cons p rest ih =>
    obtain ⟨k1, v1⟩ := p
    by_cases h1 : k1 = k
    · subst h1
      simp [mapSet, mapKeys]
    · have h3 : ¬ k = k1 := fun h => h1 h.symm
      unfold mapKeys at ih
      by_cases h2 : k ∈ List.map Prod.fst rest
      · simp [mapSet, mapKeys, h1, h3, h2, ih]
      · simp [mapSet, mapKeys, h1, h3, h2, ih]

theorem mapFind_eq_none_iff (m : AggregateMap) (k : Key) :
    mapFind m k = none ↔ k ∉ mapKeys m := by
  induction m with
  | nil => simp [mapFind, mapKeys]
  | cons p rest ih =>
    obtain ⟨k1, v1⟩ := p
    unfold mapKeys at ih
    by_cases h1 : k1 = k
    · subst h1
      simp [mapFind, mapKeys]
    · have h3 : ¬ k = k1 := fun h => h1 h.symm
      simp [mapFind, mapKeys, h1, h3, ih]

theorem mem_iff_mapFind (m : AggregateMap) (h : (mapKeys m).Nodup) (k : Key) (v : Int) :
    (k, v) ∈ m ↔ mapFind m k = some v := by
  induction m with
  | nil => simp [mapFind]
  | cons p rest ih =>
    obtain ⟨k1, v1⟩ := p
    unfold mapKeys at h ih
    simp only [List.map_cons, List.nodup_cons] at h
    by_cases h1 : k1 = k
    · subst h1
      have h4 : ∀ w, (k1, w) ∉ rest := by
        intro w hw
        exact h.1 (List.mem_map.mpr ⟨(k1, w), hw, rfl⟩)
      simp [mapFind, h4, eq_comm]
    · have h3 : ¬ k = k1 := fun h => h1 h.symm
      simp [mapFind, h1, h3, ih h.2]

theorem mapTotal_mapSet (m : AggregateMap) (k : Key) (v : Int) :
    mapTotal (mapSet m k v) = mapTotal m - mapGet m k + v := by
  induction m with
  | nil => simp [mapSet, mapTotal, mapGet, mapFind]
  | cons p rest ih =>
    obtain ⟨k1, v1⟩ := p
    unfold mapTotal at ih
    by_cases h1 : k1 = k
    · subst h1
      simp [mapSet, mapTotal, mapGet, mapFind]
      omega
    · have e : mapGet ((k1, v1) :: rest) k = mapGet rest k := by
        simp [mapGet, mapFind, h1]
      rw [e]
      simp [mapSet, mapTotal, h1, ih]
      omega

/-! ## The aggregation loop -/

theorem aggregate_append_singleton (es : List Event) (e : Event) :
    aggregate (es ++ [e]) = aggregateStep (aggregate es) e := by
  simp [aggregate, List.foldl_append]

theorem keySum_append_singleton (es : List Event) (e : Event) (k : Key) :
    keySum (es ++ [e]) k = keySum es k + (if eventKey e = k then e.Count else 0) := by
  unfold keySum
  by_cases h : eventKey e = k <;> simp [List.filter_append, List.filter_cons, h]

theorem countSum_append_singleton (es : List Event) (e : Event) :
    countSum (es ++ [e]) = countSum es + e.Count := by
  simp [countSum]

theorem mem_mapKeys_aggregate (items : List Event) (k : Key) :
    k ∈ mapKeys (aggregate items) ↔ k ∈ items.map eventKey := by
  induction items using List.reverseRecOn with
  | nil => simp [aggregate, mapKeys]
  | append_singleton es e ih =>
    rw [aggregate_append_singleton]
    unfold aggregateStep
    simp only [mapKeys_mapSet]
    by_cases h : eventKey e ∈ mapKeys (aggregate es)
    · simp only [h, if_true, ih, List.map_append, List.mem_append, List.map_cons,
        List.map_nil, List.mem_singleton]
      constructor
      · intro hk
        exact Or.inl hk
      · rintro (hk | hk)
        · exact hk
        · subst hk
          exact ih.mp h
    · simp [h, ih]

theorem nodup_mapKeys_aggregate (items : List Event) :
    (mapKeys (aggregate items)).Nodup := by
  induction items using List.reverseRecOn with
  | nil => simp [aggregate, mapKeys]
  | append_singleton es e ih =>
    rw [aggregate_append_singleton]
    unfold aggregateStep
    simp only [mapKeys_mapSet]
    by_cases h : eventKey e ∈ mapKeys (aggregate es)
    · simpa [h] using ih
    · simp only [h, if_false]
      refine List.Nodup.append ih (List.nodup_singleton _) ?_
      intro x hx hx2
      rw [List.mem_singleton] at hx2
      exact h (hx2 ▸ hx)

theorem mapGet_aggregate (items : List Event) (k : Key) :
    mapGet (aggregate items) k = wrapInt32 (keySum items k) := by
  induction items using List.reverseRecOn with
  | nil => simp [aggregate, mapGet, mapFind, keySum, wrapInt32_zero]
  | append_singleton es e ih =>
    rw [aggregate_append_singleton, keySum_append_singleton]
    unfold aggregateStep
    simp only [mapGet_mapSet]
    by_cases h : eventKey e = k
    · subst h
      simp only [if_true, ih]
      exact wrapInt32_wrap_add _ _
    · simp only [h, if_false, ih, add_zero]

theorem mapFind_aggregate (items : List Event) (k : Key) :
    mapFind (aggregate items) k =
      if k ∈ items.map eventKey then some (wrapInt32 (keySum items k)) else none := by
  by_cases h : k ∈ items.map eventKey
  · rw [if_pos h]
    have hk : mapFind (aggregate items) k ≠ none := by
      rw [Ne, mapFind_eq_none_iff, mem_mapKeys_aggregate]
      exact fun hn => hn h
    have hg := mapGet_aggregate items k
    unfold mapGet at hg
    cases hf : mapFind (aggregate items) k with
    | none => exact absurd hf hk
    | some v =>
      rw [hf] at hg
      simp only at hg
      rw [hg]
  · rw [if_neg h, mapFind_eq_none_iff, mem_mapKeys_aggregate]
    exact h

theorem mem_aggregate_iff (items : List Event) (k : Key) (v : Int) :
    (k, v) ∈ aggregate items ↔
      k ∈ items.map eventKey ∧ v = wrapInt32 (keySum items k) := by
  rw [mem_iff_mapFind _ (nodup_mapKeys_aggregate items), mapFind_aggregate]
  by_cases h : k ∈ items.map eventKey
  · simp [h, eq_comm]
  · simp [h]

theorem keySum_perm {l1 l2 : List Event} (h : l1.Perm l2) (k : Key) :
    keySum l1 k = keySum l2 k := by
  unfold keySum
  exact ((h.filter _).map _).sum_eq

theorem aggregate_perm {l1 l2 : List Event} (h : l1.Perm l2) :
    (aggregate l1).Perm (aggregate l2) := by
  have n1 : (aggregate l1).Nodup := List.Nodup.of_map _ (nodup_mapKeys_aggregate l1)
  have n2 : (aggregate l2).Nodup := List.Nodup.of_map _ (nodup_mapKeys_aggregate l2)
  rw [List.perm_ext_iff_of_nodup n1 n2]
  rintro ⟨k, v⟩
  rw [mem_aggregate_iff, mem_aggregate_iff, keySum_perm h k, (h.map eventKey).mem_iff]

theorem length_aggregate (items : List Event) :
    (aggregate items).length = ((items.map eventKey).dedup).length := by
  have hp : (mapKeys (aggregate items)).Perm ((items.map eventKey).dedup) := by
    rw [List.perm_ext_iff_of_nodup (nodup_mapKeys_aggregate items) (List.nodup_dedup _)]
    intro k
    rw [mem_mapKeys_aggregate, List.mem_dedup]
  have hl := hp.length_eq
  unfold mapKeys at hl
  rw [List.length_map] at hl
  exact hl

theorem keySum_nonneg (items : List Event) (hnn : ∀ e ∈ items, 0 ≤ e.Count) (k : Key) :
    0 ≤ keySum items k := by
  unfold keySum
  apply List.sum_nonneg
  intro x hx
  obtain ⟨e, he, rfl⟩ := List.mem_map.mp hx
  exact hnn e (List.mem_filter.mp he).1

/-! ## The emission loop -/

theorem emitLoop_receiver (c : eventCollector) (m : AggregateMap) (sent : List Metric) :
    (emitLoop c m sent).receiver = c := by
  induction m generalizing sent with
  | nil => rfl
  | cons p rest ih =>
    obtain ⟨key, value⟩ := p
    unfold emitLoop
    split
    · rfl
    · exact ih _

theorem Collect_receiver (c : eventCollector) (listResult : Except String (List Event)) :
    (Collect c listResult).receiver = c := by
  cases listResult with
  | error err => rfl
  | ok items => exact emitLoop_receiver c _ _

theorem emitLoop_cons_of_no_labels (c : eventCollector)
    (h : c.eventCountTotal.variableLabels = []) (p : Key × Int) (rest : AggregateMap)
    (sent : List Metric) :
    emitLoop c (p :: rest) sent =
      { receiver := c, sent := sent, panicked := some "inconsistent label cardinality" } := by
  obtain ⟨key, value⟩ := p
  simp [emitLoop, MustNewConstMetric, NewConstMetric, collectLabelValues, h]

theorem aggregate_cons_ne_nil (e : Event) (es : List Event) : aggregate (e :: es) ≠ [] := by
  intro hnil
  have hm : eventKey e ∈ mapKeys (aggregate (e :: es)) := by
    rw [mem_mapKeys_aggregate]
    simp
  rw [hnil] at hm
  simp [mapKeys] at hm

theorem Collect_cons_of_no_labels (c : eventCollector)
    (h : c.eventCountTotal.variableLabels = []) (e : Event) (es : List Event) :
    Collect c (.ok (e :: es)) =
      { receiver := c, sent := [], panicked := some "inconsistent label cardinality" } := by
  show emitLoop c (aggregate (e :: es)) [] = _
  cases hm : aggregate (e :: es) with
  | nil => exact absurd hm (aggregate_cons_ne_nil e es)
  | cons p rest => exact emitLoop_cons_of_no_labels c h p rest []

theorem newEventCollector_no_labels (inClusterConfig : Except String Config)
    (newForConfig : Config → Except String Clientset) (c : eventCollector)
    (h : newEventCollector inClusterConfig newForConfig = .ok c) :
    c.eventCountTotal.variableLabels = [] ∧ c.eventCountTotal.constLabels = [] := by
  unfold newEventCollector at h
  cases inClusterConfig with
  | error err => simp at h
  | ok config =>
    simp only at h
    cases hc : newForConfig config with
    | error err => simp [hc] at h
    | ok clientset =>
      simp only [hc, Except.ok.injEq] at h
      subst h
      exact ⟨rfl, rfl⟩

theorem afterCalls_eq (c : eventCollector) (calls : List Call) : afterCalls c calls = c := by
  induction calls generalizing c with
  | nil => rfl
  | cons call rest ih =>
    cases call with
    | describe => exact ih _
    | collect listResult =>
      unfold afterCalls
      rw [Collect_receiver]
      exact ih _

/-! ## The claims -/

/-- C1 (counterexample): two records of one key with the `int32` counts
2147483647 and 1. The counts of the key sum to 2147483648, the total the
aggregation loop holds for the key is -2147483648. -/
theorem aggregate_total_counterexample :
    (∀ e ∈ overflowItems, isInt32 e.Count) ∧
    scheduledKey ∈ overflowItems.map eventKey ∧
    keySum overflowItems scheduledKey = 2147483648 ∧
    mapFind (aggregate overflowItems) scheduledKey = some (-2147483648) ∧
    mapFind (aggregate overflowItems) scheduledKey ≠
      some (keySum overflowItems scheduledKey) := by
  decide

/-- C1 (amended): for every list of event records and every key occurring in
it, if the sum of the counts of the records with that key is an `int32` value,
the total the aggregation loop of `Collect` holds for the key is that sum. -/
theorem aggregate_total_eq_keySum (items : List Event) (k : Key)
    (hk : k ∈ items.map eventKey) (hr : isInt32 (keySum items k)) :
    mapFind (aggregate items) k = some (keySum items k) := by
  rw [mapFind_aggregate, if_pos hk, wrapInt32_of_isInt32 hr]

/-- C1 (witness): the three records of the scenario give exactly the two
entries (Scheduled, Normal, Pod) = 5 and (Failed, Warning, Pod) = 1. -/
theorem aggregate_total_eq_keySum_witness :
    aggregate scenarioItems =
      [(("Scheduled", "Normal", "Pod"), 5), (("Failed", "Warning", "Pod"), 1)] ∧
    keySum scenarioItems scheduledKey = 5 ∧
    scheduledKey ∈ scenarioItems.map eventKey ∧
    isInt32 (keySum scenarioItems scheduledKey) ∧
    mapFind (aggregate scenarioItems) scheduledKey =
      some (keySum scenarioItems scheduledKey) :=
  ⟨by decide, by decide, by decide, by decide,
    aggregate_total_eq_keySum scenarioItems scheduledKey (by decide) (by decide)⟩

/-- C2 (counterexample): two records of one key with the non-negative `int32`
counts 2147483647 and 1. The counts sum to 2147483648; the totals of the
aggregation map sum to -2147483648, and what `Collect` sends sums to 0. -/
theorem sample_sum_counterexample :
    (∀ e ∈ overflowItems, 0 ≤ e.Count ∧ isInt32 e.Count) ∧
    countSum overflowItems = 2147483648 ∧
    mapTotal (aggregate overflowItems) = -2147483648 ∧
    mapTotal (aggregate overflowItems) ≠ countSum overflowItems ∧
    sentTotal (Collect sampleCollector (.ok overflowItems)).sent ≠
      countSum overflowItems := by
  decide

/-- C2 (amended): for every list of event records with non-negative counts in
which the counts of each key sum to at most the largest `int32`, the totals of
the aggregation map that `Collect` builds sum to the sum of all the counts. -/
theorem mapTotal_aggregate_eq_countSum (items : List Event)
    (hnn : ∀ e ∈ items, 0 ≤ e.Count)
    (hr : ∀ e ∈ items, keySum items (eventKey e) ≤ maxInt32) :
    mapTotal (aggregate items) = countSum items := by
  induction items using List.reverseRecOn with
  | nil => simp [aggregate, mapTotal, countSum]
  | append_singleton es e ih =>
    have hnn1 : ∀ x ∈ es, 0 ≤ x.Count := fun x hx => hnn x (List.mem_append_left _ hx)
    have he : 0 ≤ e.Count := hnn e (by simp)
    have hle : ∀ k, keySum es k ≤ keySum (es ++ [e]) k := by
      intro k
      rw [keySum_append_singleton]
      split_ifs <;> omega
    have hr1 : ∀ x ∈ es, keySum es (eventKey x) ≤ maxInt32 := fun x hx =>
      le_trans (hle _) (hr x (List.mem_append_left _ hx))
    have hlast : keySum (es ++ [e]) (eventKey e) ≤ maxInt32 := hr e (by simp)
    have h0 : 0 ≤ keySum es (eventKey e) := keySum_nonneg es hnn1 _
    have h2 : keySum (es ++ [e]) (eventKey e) = keySum es (eventKey e) + e.Count := by
      rw [keySum_append_singleton]
      simp
    have h1 : isInt32 (keySum es (eventKey e)) := by
      unfold isInt32 minInt32
      unfold maxInt32 at *
      omega
    have h3 : isInt32 (keySum es (eventKey e) + e.Count) := by
      unfold isInt32 minInt32
      unfold maxInt32 at *
      omega
    rw [aggregate_append_singleton, countSum_append_singleton]
    unfold aggregateStep
    simp only [mapTotal_mapSet, mapGet_aggregate]
    rw [wrapInt32_wrap_add, ih hnn1 hr1, wrapInt32_of_isInt32 h1, wrapInt32_of_isInt32 h3]
    omega

/-- C2 (witness): the three records of the scenario; the totals 5 and 1 sum
to 6, the sum of the counts 2, 3 and 1. -/
theorem mapTotal_aggregate_eq_countSum_witness :
    (∀ e ∈ scenarioItems, 0 ≤ e.Count) ∧
    (∀ e ∈ scenarioItems, keySum scenarioItems (eventKey e) ≤ maxInt32) ∧
    countSum scenarioItems = 6 ∧
    mapTotal (aggregate scenarioItems) = countSum scenarioItems :=
  ⟨by decide, by decide, by decide,
    mapTotal_aggregate_eq_countSum scenarioItems (by decide) (by decide)⟩

/-- C3 (divergence): the aggregation map has one entry per distinct key, with
no key twice, and an empty list gives no sample and no panic; but on the list
of one record, with one distinct key and one map entry, `Collect` sends no
sample and panics in `MustNewConstMetric`. -/
theorem Collect_sample_count_divergence :
    (∀ items : List Event,
      (aggregate items).length = ((items.map eventKey).dedup).length ∧
      (mapKeys (aggregate items)).Nodup) ∧
    (Collect sampleCollector (.ok [])).sent = [] ∧
    (Collect sampleCollector (.ok [])).panicked = none ∧
    ((singleItems.map eventKey).dedup).length = 1 ∧
    (aggregate singleItems).length = 1 ∧
    (Collect sampleCollector (.ok singleItems)).sent.length = 0 ∧
    (Collect sampleCollector (.ok singleItems)).panicked =
      some "inconsistent label cardinality" :=
  ⟨fun items => ⟨length_aggregate items, nodup_mapKeys_aggregate items⟩,
    by decide, by decide, by decide, by decide, by decide, by decide⟩

/-- C4: for every list of event records and every permutation of it, the
aggregation maps built from the two lists have the same entries: the same
keys, and under every key the same total. -/
theorem aggregate_perm_invariant (l1 l2 : List Event) (h : l1.Perm l2) :
    (aggregate l1).Perm (aggregate l2) ∧
    (∀ k, k ∈ mapKeys (aggregate l1) ↔ k ∈ mapKeys (aggregate l2)) ∧
    (∀ k, mapFind (aggregate l1) k = mapFind (aggregate l2) k) := by
  refine ⟨aggregate_perm h, ?_, ?_⟩
  · intro k
    rw [mem_mapKeys_aggregate, mem_mapKeys_aggregate, (h.map eventKey).mem_iff]
  · intro k
    rw [mapFind_aggregate, mapFind_aggregate, keySum_perm h k]
    by_cases hk : k ∈ l1.map eventKey
    · rw [if_pos hk, if_pos ((h.map eventKey).mem_iff.mp hk)]
    · rw [if_neg hk, if_neg (fun h2 => hk ((h.map eventKey).mem_iff.mpr h2))]

/-- C4 (witness): the three records of the scenario and the same records in
reverse order. -/
theorem aggregate_perm_invariant_witness :
    scenarioItems.Perm scenarioItemsReordered ∧
    scenarioItems ≠ scenarioItemsReordered ∧
    (aggregate scenarioItems).Perm (aggregate scenarioItemsReordered) ∧
    (∀ k, k ∈ mapKeys (aggregate scenarioItems) ↔
      k ∈ mapKeys (aggregate scenarioItemsReordered)) ∧
    (∀ k, mapFind (aggregate scenarioItems) k =
      mapFind (aggregate scenarioItemsReordered) k) :=
  ⟨by decide, by decide,
    aggregate_perm_invariant scenarioItems scenarioItemsReordered (by decide)⟩

/-- C5 (divergence): the aggregation map has an entry for the key of every
record of the list, whatever its count, and the list of one record of count 0
gives the entry 0 for its key; but on that list `Collect` sends no sample and
panics in `MustNewConstMetric`. -/
theorem Collect_zero_count_divergence :
    (∀ (pre post : List Event) (e : Event),
      mapFind (aggregate (pre ++ e :: post)) (eventKey e) ≠ none) ∧
    (∀ e ∈ zeroItems, e.Count = 0) ∧
    mapFind (aggregate zeroItems) scheduledKey = some 0 ∧
    (Collect sampleCollector (.ok zeroItems)).sent = [] ∧
    (Collect sampleCollector (.ok zeroItems)).panicked =
      some "inconsistent label cardinality" := by
  refine ⟨?_, by decide, by decide, by decide, by decide⟩
  intro pre post e
  rw [Ne, mapFind_eq_none_iff, mem_mapKeys_aggregate]
  simp

/-- C6: when the `List` call returns an error, `Collect` panics with that
error, has sent no sample, and has left the collector as it was. -/
theorem Collect_list_failure (c : eventCollector) (err : String) :
    (Collect c (.error err)).sent = [] ∧
    (Collect c (.error err)).panicked = some err ∧
    (Collect c (.error err)).receiver = c :=
  ⟨rfl, rfl, rfl⟩

/-- C7 (divergence): the descriptor that `newEventCollector` builds declares no
variable label at all, not the three names reason, type, involvedObjectKind;
it has no constant labels. -/
theorem newEventCollector_desc_labels :
    newEventCollector (.ok { Host := "https://10.0.0.1:443" })
      (fun config => .ok { config := config }) = .ok sampleCollector ∧
    sampleCollector.eventCountTotal.fqName = "event_count_total" ∧
    sampleCollector.eventCountTotal.variableLabels = [] ∧
    sampleCollector.eventCountTotal.variableLabels ≠
      ["reason", "type", "involvedObjectKind"] ∧
    sampleCollector.eventCountTotal.constLabels = [] ∧
    (∀ (inClusterConfig : Except String Config)
        (newForConfig : Config → Except String Clientset),
      match newEventCollector inClusterConfig newForConfig with
      | .ok c => c.eventCountTotal.variableLabels = [] ∧ c.eventCountTotal.constLabels = []
      | .error _ => True) := by
  refine ⟨rfl, by decide, by decide, by decide, by decide, ?_⟩
  intro inClusterConfig newForConfig
  cases h : newEventCollector inClusterConfig newForConfig with
  | error err => trivial
  | ok c => exact newEventCollector_no_labels inClusterConfig newForConfig c h

/-- C8 (divergence): for every collector that `newEventCollector` builds and
every non-empty list of event records, `Collect` sends no sample and panics:
its first call of `MustNewConstMetric` passes six label values, the three
names interleaved with the three key fields, for a descriptor that declares
no variable label. -/
theorem Collect_panics_on_nonempty :
    (∀ (inClusterConfig : Except String Config)
        (newForConfig : Config → Except String Clientset) (e : Event) (es : List Event),
      match newEventCollector inClusterConfig newForConfig with
      | .ok c =>
        (Collect c (.ok (e :: es))).sent = [] ∧
        (Collect c (.ok (e :: es))).panicked = some "inconsistent label cardinality"
      | .error _ => True) ∧
    aggregate scenarioItems =
      [(("Scheduled", "Normal", "Pod"), 5), (("Failed", "Warning", "Pod"), 1)] ∧
    (∀ key : Key, (collectLabelValues key).length = 6) ∧
    collectLabelValues scheduledKey =
      ["reason", "Scheduled", "type", "Normal", "involvedObjectKind", "Pod"] ∧
    sampleCollector.eventCountTotal.variableLabels.length = 0 ∧
    MustNewConstMetric sampleCollector.eventCountTotal ValueType.GaugeValue 5
      (collectLabelValues scheduledKey) = .error "inconsistent label cardinality" ∧
    (Collect sampleCollector (.ok scenarioItems)).sent = [] ∧
    (Collect sampleCollector (.ok scenarioItems)).panicked =
      some "inconsistent label cardinality" := by
  refine ⟨?_, by decide, fun _ => rfl, by decide, by decide, rfl, by decide, by decide⟩
  intro inClusterConfig newForConfig e es
  cases h : newEventCollector inClusterConfig newForConfig with
  | error err => trivial
  | ok c =>
    have hc := (newEventCollector_no_labels inClusterConfig newForConfig c h).1
    show (Collect c (.ok (e :: es))).sent = [] ∧
      (Collect c (.ok (e :: es))).panicked = some "inconsistent label cardinality"
    rw [Collect_cons_of_no_labels c hc e es]
    exact ⟨rfl, rfl⟩

/-- C9: `Describe` sends exactly one descriptor, the one stored in the
collector, does not panic and leaves the collector as it was; after any
sequence of `Describe` and `Collect` calls the collector is unchanged and
`Describe` sends that same single descriptor. -/
theorem Describe_single_desc (c : eventCollector) (calls : List Call) :
    (Describe c).sent = [c.eventCountTotal] ∧
    (Describe c).panicked = none ∧
    (Describe c).receiver = c ∧
    afterCalls c calls = c ∧
    (Describe (afterCalls c calls)).sent = [c.eventCountTotal] ∧
    (Describe (afterCalls c calls)).panicked = none := by
  refine ⟨rfl, rfl, rfl, afterCalls_eq c calls, ?_, rfl⟩
  rw [afterCalls_eq]
  rfl

/-- C10 (divergence): the total the aggregation loop holds for a key of the
list is the sum of the counts of the key reduced modulo 2^32 into the `int32`
range, -2147483648 for the counts 2147483647 and 1; but on that list `Collect`
sends no sample, it panics in `MustNewConstMetric`. -/
theorem Collect_wrap_divergence :
    (∀ (items : List Event) (k : Key),
      mapFind (aggregate items) k =
        if k ∈ items.map eventKey then some (wrapInt32 (keySum items k)) else none) ∧
    (∀ x : Int, isInt32 (wrapInt32 x) ∧ wrapInt32 x % 4294967296 = x % 4294967296) ∧
    (∀ e ∈ overflowItems, isInt32 e.Count) ∧
    aggregate overflowItems = [(scheduledKey, -2147483648)] ∧
    (Collect sampleCollector (.ok overflowItems)).sent = [] ∧
    (Collect sampleCollector (.ok overflowItems)).panicked =
      some "inconsistent label cardinality" :=
  ⟨mapFind_aggregate, fun x => ⟨wrapInt32_isInt32 x, wrapInt32_emod x⟩,
    by decide, by decide, by decide, by decide⟩

end EventExporter
